import Mathlib

/-!
Verification development for the Cowell-propagation core described in
`docs/source/examples/Propagation using Cowell's formulation.ipynb` and its
specification.  The notebook itself contains the perturbation closure
`constant_accel_factory`; the vector field and the propagation driver it calls
live outside the provided sources, so those are modelled from the spec.
-/

namespace Cowell

/-- Error taxonomy of the propagation core (spec section 7): the vector field
reports a collision with the attracting body together with the time at which it
occurred, and the driver rejects a badly ordered time grid. -/
inductive PropError where
  | SingularityError (t : ℝ)
  | InvalidTimeGridError

/-- `u[3:]` of a 6-component state vector: its velocity components 3..5. -/
def vel (u : Fin 6 → ℝ) (i : Fin 3) : ℝ := u ⟨i.val + 3, by have := i.isLt; omega⟩

/-- `u[:3]` of a 6-component state vector: its position components 0..2. -/
def pos (u : Fin 6 → ℝ) (i : Fin 3) : ℝ := u ⟨i.val, by have := i.isLt; omega⟩

/-- numpy scalar division.  Dividing by zero does not raise in numpy: it
produces a non-finite value (`inf` or `nan`, with a runtime warning),
represented here as `none`; an ordinary finite quotient is `some (x / y)`. -/
noncomputable def npDiv (x y : ℝ) : Option ℝ :=
  if y = 0 then none else some (x / y)

/-- `norm_v` as computed inside `constant_accel`:
`(v[0]**2 + v[1]**2 + v[2]**2)**.5` for `v = u[3:]`. -/
noncomputable def norm_v_of (u : Fin 6 → ℝ) : ℝ :=
  Real.sqrt (vel u 0 ^ 2 + vel u 1 ^ 2 + vel u 2 ^ 2)

/-- The inner closure of the notebook's factory:

```python
def constant_accel(t0, u, k):
    v = u[3:]
    norm_v = (v[0]**2 + v[1]**2 + v[2]**2)**.5
    return accel * v / norm_v
```

The function contains no `raise` statement and no guard on `norm_v`; each
component of the result is the numpy quotient `accel * v[i] / norm_v`, which is
non-finite (NaN) when `norm_v = 0`. -/
noncomputable def constant_accel (accel _t0 : ℝ) (u : Fin 6 → ℝ) (_k : ℝ) :
    Fin 3 → Option ℝ :=
  fun i => npDiv (accel * vel u i) (norm_v_of u)

/-- The notebook's `constant_accel_factory accel`: returns the closure
`constant_accel` with `accel` captured.  Calling the closure always returns a
value (`Except.ok`); there is no failure path in its source. -/
noncomputable def constant_accel_factory (accel : ℝ) :
    ℝ → (Fin 6 → ℝ) → ℝ → Except PropError (Fin 3 → Option ℝ) :=
  fun t0 u k => Except.ok (constant_accel accel t0 u k)

/-- Euclidean norm of a 3-vector, used to state properties of the returned
acceleration. -/
noncomputable def norm3 (w : Fin 3 → ℝ) : ℝ :=
  Real.sqrt (w 0 ^ 2 + w 1 ^ 2 + w 2 ^ 2)

/-- `|r|` for the position part of a 6-component state. -/
noncomputable def rnorm (s : Fin 6 → ℝ) : ℝ :=
  Real.sqrt (pos s 0 ^ 2 + pos s 1 ^ 2 + pos s 2 ^ 2)

/-- Modelled from the spec: the right-hand side of the Cowell equation (the
notebook's markdown cell: `r'' = -(mu/|r|^3) r + a_d`); the poliastro function
computing it is not part of the provided sources.  Components 0..2 are the
velocity, components 3..5 are the central acceleration plus the perturbation. -/
noncomputable def twobodyField (t : ℝ) (state : Fin 6 → ℝ) (k : ℝ)
    (perturbation : ℝ → (Fin 6 → ℝ) → ℝ → Fin 3 → ℝ) : Fin 6 → ℝ :=
  fun j =>
    if h : j.val < 3 then vel state ⟨j.val, h⟩
    else
      -k * pos state ⟨j.val - 3, by have := j.isLt; omega⟩ / rnorm state ^ 3 +
        perturbation t state k ⟨j.val - 3, by have := j.isLt; omega⟩

/-- Modelled from the spec: the Vector Field contract
`derivative(t, state, k, perturbation) -> 6-vector` of spec section 4.1 (its
poliastro implementation is not part of the provided sources).  It fails with
`SingularityError` — reported with the evaluation time — when `|position|` is
zero, and otherwise returns the Cowell right-hand side. -/
noncomputable def derivative (t : ℝ) (state : Fin 6 → ℝ) (k : ℝ)
    (perturbation : ℝ → (Fin 6 → ℝ) → ℝ → Fin 3 → ℝ) :
    Except PropError (Fin 6 → ℝ) :=
  if rnorm state = 0 then Except.error (PropError.SingularityError t)
  else Except.ok (twobodyField t state k perturbation)

/-- Tolerance configuration of a propagation call (spec section 9): relative
and absolute local-error tolerances, validated once at call entry. -/
structure ToleranceConfig where
  rtol : ℚ
  atol : ℚ

/-- A driver-level propagation state: 6 components (position, velocity).  The
driver claims (grid handling, determinism) involve no real-valued analysis, so
the driver is embedded over `ℚ` to keep its definitions computable. -/
abbrev PState := Fin 6 → ℚ

/-- A driver-level perturbation provider: `(t, state, k) -> 3-vector`. -/
abbrev Pert := ℚ → PState → ℚ → (Fin 3 → ℚ)

/-- The integration frontier: the last accepted time and the state there. -/
structure Frontier where
  t : ℚ
  s : PState

/-- Modelled from the spec: the Adaptive Integrator (spec section 4.3, not part
of the provided sources) abstracted as an advance operation — given the
gravitational parameter, the tolerance configuration and the perturbation
provider, it moves the frontier to a requested time (taking adaptive steps and
using dense output internally) and yields the state there. -/
abbrev Advance := ℚ → ToleranceConfig → Pert → Frontier → ℚ → PState

/-- Modelled from the spec: the Propagation Driver loop of spec section 4.4
(not part of the provided sources).  For each requested time it either reuses
the frontier state (when the requested time is the frontier time, e.g. a
request for time 0 before any step) or advances the integrator to the
requested time and moves the frontier there. -/
def propagateFrom (advance : Frontier → ℚ → PState) :
    Frontier → List ℚ → List PState
  | _, [] => []
  | fr, t :: ts =>
    if t = fr.t then fr.s :: propagateFrom advance fr ts
    else
      let s' := advance fr t
      s' :: propagateFrom advance ⟨t, s'⟩ ts

/-- Modelled from the spec: the Propagation Driver contract
`propagate(state0, k, time_grid, tolerance_config, perturbation)` of spec
section 4.4 (its poliastro implementation is not part of the provided sources;
the notebook only calls it).  It first validates that the requested times are
monotonically ordered in the (forward, default) direction of propagation,
failing fast with `InvalidTimeGridError` before any integrator work; otherwise
it runs the driver loop from the initial frontier `(0, state0)`. -/
def propagate (advance : Advance) (state0 : PState) (k : ℚ)
    (time_grid : List ℚ) (tol : ToleranceConfig) (perturbation : Pert) :
    Except PropError (List PState) :=
  if List.Chain' (· ≤ ·) time_grid then
    Except.ok (propagateFrom (advance k tol perturbation) ⟨0, state0⟩ time_grid)
  else
    Except.error PropError.InvalidTimeGridError

/-! ### Concrete inputs used by witnesses and counterexamples -/

/-- The all-zero 6-component state: zero position and zero velocity. -/
def zeroState : Fin 6 → ℝ := fun _ => 0

/-- A state with velocity `(3, 0, 0)` (so `norm_v = 3`) and zero position. -/
def uTest : Fin 6 → ℝ := fun i => if i.val = 3 then 3 else 0

/-- A state with the same velocity `(3, 0, 0)` as `uTest` but position
`(5, 5, 5)`. -/
def uTest' : Fin 6 → ℝ := fun i => if i.val < 3 then 5 else if i.val = 3 then 3 else 0

/-- A state with position `(1, 0, 0)` and velocity `(0, 5, 0)`. -/
def sTest : Fin 6 → ℝ := fun i => if i.val = 0 then 1 else if i.val = 4 then 5 else 0

/-- The zero perturbation (pure two-body motion), real-valued version. -/
def zeroPertR : ℝ → (Fin 6 → ℝ) → ℝ → Fin 3 → ℝ := fun _ _ _ _ => 0

/-- The zero perturbation at driver level. -/
def zeroPertQ : Pert := fun _ _ _ => fun _ => 0

/-- A concrete driver-level initial state, all components 1. -/
def s0W : PState := fun _ => 1

/-- A concrete abstract integrator used only to instantiate driver theorems. -/
def advW : Advance := fun _ _ _ _ _ => fun _ => 0

/-- A sorted, non-negative concrete time grid. -/
def gridW : List ℚ := [0, 1, 2]

/-- A concrete time grid with a decreasing entry. -/
def gridBad : List ℚ := [1, 0]

end Cowell

namespace Cowell

/-! ### Helper lemmas -/

theorem norm_v_of_zeroState : norm_v_of zeroState = 0 := by
  simp [norm_v_of, vel, zeroState]

theorem rnorm_zeroState : rnorm zeroState = 0 := by
  simp [rnorm, pos, zeroState]

theorem norm_v_of_uTest : norm_v_of uTest = 3 := by
  have h9 : norm_v_of uTest = Real.sqrt 9 := by
    norm_num [norm_v_of, vel, uTest]
  rw [h9, show (9 : ℝ) = 3 ^ 2 by norm_num, Real.sqrt_sq (by norm_num : (0:ℝ) ≤ 3)]

theorem vel_uTest'_eq : vel uTest' = vel uTest := by
  funext i
  fin_cases i <;> norm_num [vel, uTest, uTest']

/-! ### Claims about `constant_accel_factory` -/

/-- Claim C1, counterexample: at the all-zero state — whose velocity part has
zero Euclidean norm — the closure returned by `constant_accel_factory` does not
fail.  It returns a successful value every component of which is the
non-finite (NaN) result of dividing by zero. -/
theorem constant_accel_zero_velocity_returns_nan :
    constant_accel_factory 1 0 zeroState 1 = Except.ok (fun _ => none) := by
  unfold constant_accel_factory
  congr 1
  funext i
  simp [constant_accel, npDiv, norm_v_of_zeroState]

/-- Claim C1, amended: for every input state whose velocity part has zero
Euclidean norm, the closure returned by `constant_accel_factory` performs the
division by zero rather than raising: it returns `Except.ok` of a 3-vector all
of whose components are non-finite. -/
theorem constant_accel_zero_velocity (accel t0 k : ℝ) (u : Fin 6 → ℝ)
    (h : norm_v_of u = 0) :
    constant_accel_factory accel t0 u k = Except.ok (fun _ => none) := by
  unfold constant_accel_factory
  congr 1
  funext i
  simp [constant_accel, npDiv, h]

/-- Claim C1, witness: the zero-norm hypothesis and the amended conclusion hold
at the all-zero state. -/
theorem constant_accel_zero_velocity_witness :
    norm_v_of zeroState = 0 ∧
    constant_accel_factory 2 0 zeroState 1 = Except.ok (fun _ => none) :=
  ⟨norm_v_of_zeroState,
    constant_accel_zero_velocity 2 0 1 zeroState norm_v_of_zeroState⟩

/-- Claim C9: for every `accel` and every state whose velocity part has
nonzero Euclidean norm, the closure returns `accel` times the unit vector in
the velocity direction, and the Euclidean norm of that 3-vector is `|accel|`. -/
theorem constant_accel_along_velocity (accel t0 k : ℝ) (u : Fin 6 → ℝ)
    (h : norm_v_of u ≠ 0) :
    constant_accel_factory accel t0 u k =
      Except.ok (fun i => some (accel * vel u i / norm_v_of u)) ∧
    norm3 (fun i => accel * vel u i / norm_v_of u) = |accel| := by
  constructor
  · unfold constant_accel_factory
    congr 1
    funext i
    simp [constant_accel, npDiv, h]
  · have hS : 0 ≤ vel u 0 ^ 2 + vel u 1 ^ 2 + vel u 2 ^ 2 := by positivity
    have hsq : norm_v_of u ^ 2 = vel u 0 ^ 2 + vel u 1 ^ 2 + vel u 2 ^ 2 := by
      rw [norm_v_of, Real.sq_sqrt hS]
    have key : (accel * vel u 0 / norm_v_of u) ^ 2 +
        (accel * vel u 1 / norm_v_of u) ^ 2 +
        (accel * vel u 2 / norm_v_of u) ^ 2 = accel ^ 2 := by
      field_simp
      rw [hsq]
      ring
    show Real.sqrt ((accel * vel u 0 / norm_v_of u) ^ 2 +
        (accel * vel u 1 / norm_v_of u) ^ 2 +
        (accel * vel u 2 / norm_v_of u) ^ 2) = |accel|
    rw [key, Real.sqrt_sq_eq_abs]

/-- Claim C9, witness: at velocity `(3, 0, 0)` and `accel = 2` the hypothesis
holds and the closure returns the advertised unit-direction acceleration. -/
theorem constant_accel_along_velocity_witness :
    norm_v_of uTest ≠ 0 ∧
    (constant_accel_factory 2 0 uTest 1 =
        Except.ok (fun i => some (2 * vel uTest i / norm_v_of uTest)) ∧
      norm3 (fun i => 2 * vel uTest i / norm_v_of uTest) = |(2 : ℝ)|) := by
  have h : norm_v_of uTest ≠ 0 := by rw [norm_v_of_uTest]; norm_num
  exact ⟨h, constant_accel_along_velocity 2 0 1 uTest h⟩

/-- Claim C10: the closure returned by `constant_accel_factory` reads only the
velocity components 3..5 of its state argument — two calls whose states agree
there return the same 3-vector, whatever the times, gravitational parameters
and position components are. -/
theorem constant_accel_depends_only_on_velocity (accel t0 t0' k k' : ℝ)
    (u u' : Fin 6 → ℝ) (h : vel u = vel u') :
    constant_accel_factory accel t0 u k = constant_accel_factory accel t0' u' k' := by
  have hn : norm_v_of u = norm_v_of u' := by unfold norm_v_of; rw [h]
  unfold constant_accel_factory constant_accel
  rw [h, hn]

/-- Claim C10, witness: `uTest'` and `uTest` differ in every position
component, yet with equal velocity parts the closure's outputs coincide even
for different times and gravitational parameters. -/
theorem constant_accel_depends_only_on_velocity_witness :
    vel uTest' = vel uTest ∧
    constant_accel_factory 2 5 uTest' 7 = constant_accel_factory 2 0 uTest 1 :=
  ⟨vel_uTest'_eq,
    constant_accel_depends_only_on_velocity 2 5 0 7 1 uTest' uTest vel_uTest'_eq⟩

/-! ### Claims about the vector field -/

theorem twobodyField_velocity (t k : ℝ) (state : Fin 6 → ℝ)
    (perturbation : ℝ → (Fin 6 → ℝ) → ℝ → Fin 3 → ℝ) (i : Fin 3) :
    twobodyField t state k perturbation ⟨i.val, by have := i.isLt; omega⟩ =
      vel state i := by
  have h3 : i.val < 3 := i.isLt
  simp [twobodyField, h3]

theorem twobodyField_acceleration (t k : ℝ) (state : Fin 6 → ℝ)
    (perturbation : ℝ → (Fin 6 → ℝ) → ℝ → Fin 3 → ℝ) (i : Fin 3) :
    twobodyField t state k perturbation ⟨i.val + 3, by have := i.isLt; omega⟩ =
      -k * pos state i / rnorm state ^ 3 + perturbation t state k i := by
  have h3 : ¬ i.val + 3 < 3 := by omega
  simp [twobodyField, h3]

theorem rnorm_sTest : rnorm sTest = 1 := by
  have h1 : rnorm sTest = Real.sqrt 1 := by
    norm_num [rnorm, pos, sTest]
  rw [h1, Real.sqrt_one]

/-- Claim C3, counterexample: at the all-zero state (position magnitude zero)
with positive `k = 1`, the vector field does not return a derivative 6-vector:
it fails with `SingularityError`. -/
theorem derivative_zero_position_fails :
    derivative 0 zeroState 1 zeroPertR =
      Except.error (PropError.SingularityError 0) := by
  unfold derivative
  rw [if_pos rnorm_zeroState]

/-- Claim C3, amended: for every time, positive gravitational parameter,
perturbation function, and state whose position magnitude is nonzero, the
vector field returns a 6-vector whose first three components are the state's
velocity components and whose last three are
`-k * position / |position|^3 + perturbation(t, state, k)`. -/
theorem derivative_components (t k : ℝ) (state : Fin 6 → ℝ)
    (perturbation : ℝ → (Fin 6 → ℝ) → ℝ → Fin 3 → ℝ)
    (_hk : 0 < k) (hr : rnorm state ≠ 0) :
    ∃ dv : Fin 6 → ℝ,
      derivative t state k perturbation = Except.ok dv ∧
      (∀ i : Fin 3, dv ⟨i.val, by have := i.isLt; omega⟩ = vel state i) ∧
      (∀ i : Fin 3, dv ⟨i.val + 3, by have := i.isLt; omega⟩ =
        -k * pos state i / rnorm state ^ 3 + perturbation t state k i) := by
  refine ⟨twobodyField t state k perturbation, ?_, ?_, ?_⟩
  · unfold derivative
    rw [if_neg hr]
  · exact twobodyField_velocity t k state perturbation
  · exact twobodyField_acceleration t k state perturbation

/-- Claim C3, witness: at the state with position `(1, 0, 0)` and velocity
`(0, 5, 0)`, `k = 1 > 0` and nonzero position norm, the vector field returns
the advertised components. -/
theorem derivative_components_witness :
    0 < (1 : ℝ) ∧ rnorm sTest ≠ 0 ∧
    ∃ dv : Fin 6 → ℝ,
      derivative 0 sTest 1 zeroPertR = Except.ok dv ∧
      (∀ i : Fin 3, dv ⟨i.val, by have := i.isLt; omega⟩ = vel sTest i) ∧
      (∀ i : Fin 3, dv ⟨i.val + 3, by have := i.isLt; omega⟩ =
        -1 * pos sTest i / rnorm sTest ^ 3 + zeroPertR 0 sTest 1 i) := by
  have hk : 0 < (1 : ℝ) := by norm_num
  have hr : rnorm sTest ≠ 0 := by rw [rnorm_sTest]; norm_num
  exact ⟨hk, hr, derivative_components 0 1 sTest zeroPertR hk hr⟩

/-- Claim C5: for every evaluation at which the position magnitude is zero,
the vector field fails with a `SingularityError` carrying the time at which it
occurred, rather than returning a value. -/
theorem derivative_singularity (t k : ℝ) (state : Fin 6 → ℝ)
    (perturbation : ℝ → (Fin 6 → ℝ) → ℝ → Fin 3 → ℝ)
    (h : rnorm state = 0) :
    derivative t state k perturbation =
      Except.error (PropError.SingularityError t) := by
  unfold derivative
  rw [if_pos h]

/-- Claim C5, witness: at the all-zero state and evaluation time 2 the vector
field fails with `SingularityError 2`. -/
theorem derivative_singularity_witness :
    rnorm zeroState = 0 ∧
    derivative 2 zeroState 3 zeroPertR =
      Except.error (PropError.SingularityError 2) :=
  ⟨rnorm_zeroState,
    derivative_singularity 2 3 zeroState zeroPertR rnorm_zeroState⟩

/-! ### Claims about the propagation driver -/

theorem propagateFrom_length (advance : Frontier → ℚ → PState) :
    ∀ (fr : Frontier) (g : List ℚ),
      (propagateFrom advance fr g).length = g.length := by
  intro fr g
  induction g generalizing fr with
  | nil => rfl
  | cons t ts ih =>
    simp only [propagateFrom]
    split
    · simp [ih]
    · simp [ih]

theorem propagateFrom_zero_entry (advance : Frontier → ℚ → PState) (s0 : PState) :
    ∀ (g : List ℚ), List.Chain' (· ≤ ·) g → (∀ x ∈ g, 0 ≤ x) →
      ∀ i : ℕ, g[i]? = some 0 →
        (propagateFrom advance ⟨0, s0⟩ g)[i]? = some s0 := by
  intro g
  induction g with
  | nil =>
    intro _ _ i hi
    simp at hi
  | cons t ts ih =>
    intro hc hpos i hi
    by_cases ht : t = 0
    · subst ht
      have hstep : propagateFrom advance ⟨0, s0⟩ (0 :: ts) =
          s0 :: propagateFrom advance ⟨0, s0⟩ ts := by
        simp [propagateFrom]
      rw [hstep]
      match i with
      | 0 => simp
      | Nat.succ j =>
        have hts : ts[j]? = some 0 := by simpa using hi
        have hrec := ih hc.tail
          (fun x hx => hpos x (List.mem_cons_of_mem _ hx)) j hts
        simpa using hrec
    · exfalso
      match i with
      | 0 =>
        have : t = 0 := by simpa using hi
        exact ht this
      | Nat.succ j =>
        have hts : ts[j]? = some 0 := by simpa using hi
        have hmem : (0 : ℚ) ∈ ts := List.getElem?_mem hts
        have hle : t ≤ 0 := by
          have hp := List.chain'_iff_pairwise.mp hc
          exact (List.pairwise_cons.mp hp).1 0 hmem
        have hge : 0 ≤ t := hpos t (List.mem_cons_self t ts)
        exact ht (le_antisymm hle hge)

/-- Claim C2: for every sorted time grid (whose entries are non-negative, as
the TimeGrid invariant of spec section 3 requires), `propagate` succeeds; the
returned sequence has exactly the length of the grid, entry `i` answering the
grid's entry `i`; and every entry requesting time 0 yields the initial state
`state0` unchanged. -/
theorem propagate_preserves_grid (advance : Advance) (state0 : PState) (k : ℚ)
    (time_grid : List ℚ) (tol : ToleranceConfig) (perturbation : Pert)
    (hsorted : List.Chain' (· ≤ ·) time_grid)
    (hpos : ∀ x ∈ time_grid, 0 ≤ x) :
    ∃ out : List PState,
      propagate advance state0 k time_grid tol perturbation = Except.ok out ∧
      out.length = time_grid.length ∧
      ∀ i : ℕ, time_grid[i]? = some 0 → out[i]? = some state0 := by
  refine ⟨propagateFrom (advance k tol perturbation) ⟨0, state0⟩ time_grid,
    ?_, ?_, ?_⟩
  · unfold propagate
    rw [if_pos hsorted]
  · exact propagateFrom_length _ _ _
  · exact propagateFrom_zero_entry _ _ _ hsorted hpos

/-- Claim C2, witness: on the grid `[0, 1, 2]` the driver returns three
states and the entry requesting time 0 returns the initial state. -/
theorem propagate_preserves_grid_witness :
    List.Chain' (· ≤ ·) gridW ∧ (∀ x ∈ gridW, 0 ≤ x) ∧
    ∃ out : List PState,
      propagate advW s0W 1 gridW ⟨1, 1⟩ zeroPertQ = Except.ok out ∧
      out.length = gridW.length ∧
      ∀ i : ℕ, gridW[i]? = some 0 → out[i]? = some s0W := by
  have h1 : List.Chain' (· ≤ ·) gridW := by simp [gridW, List.chain'_cons]
  have h2 : ∀ x ∈ gridW, 0 ≤ x := by decide
  exact ⟨h1, h2, propagate_preserves_grid advW s0W 1 gridW ⟨1, 1⟩ zeroPertQ h1 h2⟩

/-- Claim C4: for every time grid that is not monotonically ordered in the
(forward) direction of propagation, `propagate` fails with
`InvalidTimeGridError`; the result is the same whatever the integrator — the
rejection happens before any integration step executes and no state is
produced. -/
theorem propagate_invalid_grid (advance : Advance) (state0 : PState) (k : ℚ)
    (time_grid : List ℚ) (tol : ToleranceConfig) (perturbation : Pert)
    (h : ¬ List.Chain' (· ≤ ·) time_grid) :
    propagate advance state0 k time_grid tol perturbation =
      Except.error PropError.InvalidTimeGridError := by
  unfold propagate
  rw [if_neg h]

/-- Claim C4, witness: the decreasing grid `[1, 0]` is rejected. -/
theorem propagate_invalid_grid_witness :
    ¬ List.Chain' (· ≤ ·) gridBad ∧
    propagate advW s0W 1 gridBad ⟨1, 1⟩ zeroPertQ =
      Except.error PropError.InvalidTimeGridError := by
  have h : ¬ List.Chain' (· ≤ ·) gridBad := by simp [gridBad, List.chain'_cons]
  exact ⟨h, propagate_invalid_grid advW s0W 1 gridBad ⟨1, 1⟩ zeroPertQ h⟩

/-- Claim C8: propagation is deterministic — `propagate` is a pure function of
its input tuple, so any two calls whose initial state, gravitational
parameter, time grid, tolerance configuration and perturbation function are
equal return identical output sequences. -/
theorem propagate_deterministic (advance : Advance) (s0 s0' : PState)
    (k k' : ℚ) (g g' : List ℚ) (tol tol' : ToleranceConfig) (p p' : Pert)
    (h0 : s0 = s0') (h1 : k = k') (h2 : g = g') (h3 : tol = tol')
    (h4 : p = p') :
    propagate advance s0 k g tol p = propagate advance s0' k' g' tol' p' := by
  subst h0 h1 h2 h3 h4
  rfl

/-- Claim C8, witness: two calls with the same concrete inputs return the same
sequence. -/
theorem propagate_deterministic_witness :
    s0W = s0W ∧ (1 : ℚ) = 1 ∧ gridW = gridW ∧
    (⟨1, 1⟩ : ToleranceConfig) = ⟨1, 1⟩ ∧ zeroPertQ = zeroPertQ ∧
    propagate advW s0W 1 gridW ⟨1, 1⟩ zeroPertQ =
      propagate advW s0W 1 gridW ⟨1, 1⟩ zeroPertQ :=
  ⟨rfl, rfl, rfl, rfl, rfl,
    propagate_deterministic advW s0W s0W 1 1 gridW gridW ⟨1, 1⟩ ⟨1, 1⟩
      zeroPertQ zeroPertQ rfl rfl rfl rfl rfl⟩

end Cowell
